import Mathlib

/-!
# Verification of the perspective-server session router

A shallow embedding of `src/rust/perspective-server/src/lib.rs`: the `Server`
(router) owning an opaque engine handle and a callback registry, and the
`Session` handles bound to engine-allocated identifiers.  Opaque byte payloads
are modelled as `List Nat`, the boxed error type as `String`, and the async
effects (sink invocations, engine release, registry removal) are made explicit
as traces so that ordering and fail-fast behaviour are observable.
-/

/-- Opaque request/response payload bytes (`&[u8]` / `Vec<u8>` in the source). -/
abbrev Bytes := List Nat

/-- Model of `ServerError = Box<dyn Error + Send + Sync>`: only the identity of
the error matters to the router, so a `String` stands in for the boxed error. -/
abbrev ServerError := String

/-- One element of an engine response batch: the `Response` values yielded by
`ffi::handle_request(..).0` and `ffi::poll(..).0`, each carrying a recipient
`client_id` and a payload `resp`. -/
structure EngineResponse where
  client_id : Nat
  resp : Bytes
deriving Repr, DecidableEq

/-- A `SessionCallback` (`Arc<dyn Fn(&[u8]) -> BoxFuture<Result<(), ServerError>>>`):
its observable behaviour is a function from payload to delivery result. -/
structure SessionCallback where
  deliver : Bytes → Except ServerError Unit

/-- Modelled from the spec: the opaque engine handle `ffi::ProtoApiServer`.
The `ffi` module's C++ engine is not part of the Rust source; per the spec the
engine allocates fresh session identifiers (`allocate_session`), answers
`submit(identifier, bytes)` with a batch of `(identifier, bytes)` pairs whose
internal computation is out of scope (here an opaque function `submitFn`),
buffers asynchronous output returned by `drain`, and releases identifier-scoped
resources on `release`. -/
structure ProtoApiServer where
  /-- Next fresh identifier; the spec requires identifiers never reused while
  registered, modelled by a monotone counter. -/
  nextId : Nat
  /-- Opaque engine computation: the response batch for a submitted request. -/
  submitFn : Nat → Bytes → List EngineResponse
  /-- Asynchronous output buffered inside the engine, flushed by `drain`. -/
  buffered : List EngineResponse
  /-- Identifiers currently allocated and not yet released. -/
  live : List Nat

/-- Modelled from the spec: `ffi::new_session` asks the engine to allocate a
fresh identifier. -/
def ffi.new_session (e : ProtoApiServer) : ProtoApiServer × Nat :=
  ({ e with nextId := e.nextId + 1, live := e.nextId :: e.live }, e.nextId)

/-- Modelled from the spec: `ffi::handle_request` submits `(client_id, val)` to
the engine and yields its response batch (the engine's computation is opaque). -/
def ffi.handle_request (e : ProtoApiServer) (client_id : Nat) (val : Bytes) :
    List EngineResponse :=
  e.submitFn client_id val

/-- Modelled from the spec: `ffi::poll` drains the engine's buffered
asynchronous output. -/
def ffi.poll (e : ProtoApiServer) : ProtoApiServer × List EngineResponse :=
  ({ e with buffered := [] }, e.buffered)

/-- Modelled from the spec: `ffi::close_session` releases the engine-side
resources scoped to one identifier. -/
def ffi.close_session (e : ProtoApiServer) (client_id : Nat) : ProtoApiServer :=
  { e with live := e.live.erase client_id }

/-- The callback registry `HashMap<u32, SessionCallback>`, modelled as an
association list with HashMap semantics: `insert` replaces any existing binding
of the key, so keys are unique by construction. -/
structure Registry where
  entries : List (Nat × SessionCallback)

/-- Model of `HashMap::get(&k).cloned()`: point lookup of a key's callback. -/
def Registry.get? (cbs : Registry) (k : Nat) : Option SessionCallback :=
  (cbs.entries.find? (fun p => p.fst == k)).map Prod.snd

/-- Model of `HashMap::insert(k, v)`: binds `k` to `v`, replacing any prior binding. -/
def Registry.insert (cbs : Registry) (k : Nat) (v : SessionCallback) : Registry :=
  ⟨(k, v) :: cbs.entries.filter (fun p => p.fst != k)⟩

/-- Model of `HashMap::remove(&k)`: removes the binding of `k`, reporting `none` when no
binding exists (the source then panics via `.expect("Already closed")`). -/
def Registry.remove (cbs : Registry) (k : Nat) : Option Registry :=
  if (cbs.entries.find? (fun p => p.fst == k)).isSome then
    some ⟨cbs.entries.filter (fun p => p.fst != k)⟩
  else
    none

/-- The identifiers currently registered. -/
def Registry.keys (cbs : Registry) : List Nat :=
  cbs.entries.map Prod.fst

/-- The `Server` struct: the engine handle plus the callback registry. -/
structure Server where
  server : ProtoApiServer
  callbacks : Registry

/-- A sink invocation that was actually attempted: the recipient identifier the
registry lookup succeeded for, and the payload passed to its callback. -/
structure Delivery where
  client_id : Nat
  resp : Bytes
deriving Repr, DecidableEq

/-- The body of the `for response in ffi::handle_request(..).0` loop of
`Server::handle_request`: look up the recipient's callback under a read lock;
if present invoke it with the payload and propagate its error via `?`
(abandoning the rest of the batch); if absent skip the item.  The result pairs
the trace of attempted deliveries with `none` for `Ok(())` or `some e` for a
propagated delivery error. -/
def handleRequestLoop (callbacks : Registry) :
    List EngineResponse → List Delivery × Option ServerError
  | [] => ([], none)
  | response :: rest =>
    match callbacks.get? response.client_id with
    | some f =>
      match f.deliver response.resp with
      | Except.ok _ =>
        let r := handleRequestLoop callbacks rest
        (⟨response.client_id, response.resp⟩ :: r.fst, r.snd)
      | Except.error e => ([⟨response.client_id, response.resp⟩], some e)
    | none => handleRequestLoop callbacks rest

/-- The body of the `for response in ffi::poll(..).0` loop of `Server::poll`,
written out separately because the source duplicates the loop verbatim in
`Server::poll` rather than sharing it with `Server::handle_request`. -/
def pollLoop (callbacks : Registry) :
    List EngineResponse → List Delivery × Option ServerError
  | [] => ([], none)
  | response :: rest =>
    match callbacks.get? response.client_id with
    | some f =>
      match f.deliver response.resp with
      | Except.ok _ =>
        let r := pollLoop callbacks rest
        (⟨response.client_id, response.resp⟩ :: r.fst, r.snd)
      | Except.error e => ([⟨response.client_id, response.resp⟩], some e)
    | none => pollLoop callbacks rest

/-- Embeds `Server::handle_request(client_id, val)`: submit the request to the engine
and deliver its response batch through the registry.  Returns the resulting
server state together with the delivery trace and outcome. -/
def Server.handle_request (s : Server) (client_id : Nat) (val : Bytes) :
    Server × List Delivery × Option ServerError :=
  (s, handleRequestLoop s.callbacks (ffi.handle_request s.server client_id val))

/-- Embeds `Server::poll()`: drain the engine's buffered output and deliver it through
the registry. -/
def Server.poll (s : Server) : Server × List Delivery × Option ServerError :=
  let d := ffi.poll s.server
  ({ s with server := d.fst }, pollLoop s.callbacks d.snd)

/-- The observable side effects of `Server::close`, in the order the source
performs them. -/
inductive CloseEvent where
  | engineRelease (client_id : Nat)
  | registryRemove (client_id : Nat)
deriving Repr, DecidableEq

/-- Embeds `Server::close(client_id)`: first `ffi::close_session` releases the
engine-side resources, then the registry entry is removed under a write lock;
`.expect("Already closed")` panics when no entry existed, modelled as `none`. -/
def Server.close (s : Server) (client_id : Nat) :
    Option (Server × List CloseEvent) :=
  let e := ffi.close_session s.server client_id
  match s.callbacks.remove client_id with
  | some cbs =>
    some ({ server := e, callbacks := cbs },
      [CloseEvent.engineRelease client_id, CloseEvent.registryRemove client_id])
  | none => none

/-- The `Session` struct: the engine-allocated identifier and the closed flag.
(The source's `server: Server` back-reference is passed explicitly to each
operation in this pure model.) -/
structure Session where
  id : Nat
  closed : Bool
deriving Repr, DecidableEq

/-- Embeds `Server::new_session_with_callback(send_response)`: ask the engine for a
fresh identifier, insert `identifier -> sink` into the registry, and return the
`Session` bound to that identifier, all before the handle reaches the caller. -/
def Server.new_session_with_callback (s : Server) (send_response : SessionCallback) :
    Server × Session :=
  let a := ffi.new_session s.server
  ({ server := a.fst, callbacks := s.callbacks.insert a.snd send_response },
   { id := a.snd, closed := false })

/-- Embeds `Session::handle_request(request)`: delegates to
`self.server.handle_request(self.id, request)`. -/
def Session.handle_request (sess : Session) (s : Server) (request : Bytes) :
    Server × List Delivery × Option ServerError :=
  Server.handle_request s sess.id request

/-- Embeds `Session::poll()`: delegates to the global `self.server.poll()`; nothing of
the session besides its server reference is consulted. -/
def Session.poll (_sess : Session) (s : Server) :
    Server × List Delivery × Option ServerError :=
  Server.poll s

/-- Embeds `impl Drop for Session`: the number of error-level `tracing` log events
emitted when the session value is discarded — one when the closed flag is
still unset, zero otherwise.  The destructor is total: it never panics. -/
def Session.drop (sess : Session) : Nat :=
  if sess.closed then 0 else 1

/-- Embeds `Session::close()`: consumes the session by value, sets its closed flag,
and delegates to `self.server.close(self.id)`.  Returns the consumed session
value (as Rust drops it at the end of `close`) alongside the router outcome. -/
def Session.close (sess : Session) (s : Server) :
    Session × Option (Server × List CloseEvent) :=
  ({ sess with closed := true }, Server.close s sess.id)

/-- Creating multiple sessions in sequence on one server, collecting the
identifiers of the returned sessions. -/
def createSessions (s : Server) : List SessionCallback → Server × List Nat
  | [] => (s, [])
  | cb :: rest =>
    let a := Server.new_session_with_callback s cb
    let b := createSessions a.fst rest
    (b.fst, a.snd.id :: b.snd)

/-- An item the delivery loop passes over without aborting: either its
recipient is unregistered, or its callback accepts the payload. -/
def deliveryOk (cbs : Registry) (r : EngineResponse) : Bool :=
  match cbs.get? r.client_id with
  | none => true
  | some f =>
    match f.deliver r.resp with
    | Except.ok _ => true
    | Except.error _ => false

/-- The deliveries attempted for a batch when no callback fails: exactly the
currently-registered recipients named in the batch, in batch order. -/
def okTrace (cbs : Registry) (batch : List EngineResponse) : List Delivery :=
  batch.filterMap (fun r =>
    (cbs.get? r.client_id).map (fun _ => ⟨r.client_id, r.resp⟩))

/-! ## Helper lemmas about the delivery loops and the registry -/

theorem handleRequestLoop_all_ok (cbs : Registry) (batch : List EngineResponse)
    (h : ∀ r ∈ batch, deliveryOk cbs r = true) :
    handleRequestLoop cbs batch = (okTrace cbs batch, none) := by
  induction batch with
  | nil => rfl
  | cons r rest ih =>
    have hr := h r (List.mem_cons_self _ _)
    have hrest : ∀ x ∈ rest, deliveryOk cbs x = true :=
      fun x hx => h x (List.mem_cons_of_mem _ hx)
    cases hg : cbs.get? r.client_id with
    | none =>
      simp only [handleRequestLoop, okTrace, List.filterMap_cons, hg, Option.map_none',
        ih hrest]
    | some f =>
      cases hd : f.deliver r.resp with
      | ok u =>
        simp only [handleRequestLoop, okTrace, List.filterMap_cons, hg, hd, Option.map_some',
          ih hrest]
      | error e =>
        simp [deliveryOk, hg, hd] at hr

theorem handleRequestLoop_fail_fast (cbs : Registry) (pre : List EngineResponse)
    (r : EngineResponse) (post : List EngineResponse) (f : SessionCallback)
    (e : ServerError)
    (hpre : ∀ x ∈ pre, deliveryOk cbs x = true)
    (hf : cbs.get? r.client_id = some f)
    (he : f.deliver r.resp = Except.error e) :
    handleRequestLoop cbs (pre ++ r :: post) =
      (okTrace cbs pre ++ [⟨r.client_id, r.resp⟩], some e) := by
  induction pre with
  | nil =>
    simp only [List.nil_append, handleRequestLoop, hf, he, okTrace, List.filterMap_nil]
  | cons x xs ih =>
    have hx := hpre x (List.mem_cons_self _ _)
    have hxs : ∀ y ∈ xs, deliveryOk cbs y = true :=
      fun y hy => hpre y (List.mem_cons_of_mem _ hy)
    cases hg : cbs.get? x.client_id with
    | none =>
      simp only [List.cons_append, handleRequestLoop, hg, List.append_eq, ih hxs, okTrace,
        List.filterMap_cons, Option.map_none']
    | some g =>
      cases hd : g.deliver x.resp with
      | ok u =>
        simp only [List.cons_append, handleRequestLoop, hg, hd, List.append_eq, ih hxs,
          okTrace, List.filterMap_cons, Option.map_some', List.cons_append]
      | error e2 =>
        simp [deliveryOk, hg, hd] at hx

theorem handleRequestLoop_skip (cbs : Registry) (r : EngineResponse)
    (rest : List EngineResponse) (h : cbs.get? r.client_id = none) :
    handleRequestLoop cbs (r :: rest) = handleRequestLoop cbs rest := by
  simp only [handleRequestLoop, h]

theorem pollLoop_eq_handleRequestLoop (cbs : Registry) (batch : List EngineResponse) :
    pollLoop cbs batch = handleRequestLoop cbs batch := by
  induction batch with
  | nil => rfl
  | cons r rest ih =>
    cases hg : cbs.get? r.client_id with
    | none => simp only [pollLoop, handleRequestLoop, hg, ih]
    | some f =>
      cases hd : f.deliver r.resp with
      | ok u => simp only [pollLoop, handleRequestLoop, hg, hd, ih]
      | error e => simp only [pollLoop, handleRequestLoop, hg, hd]

theorem Registry.find?_filter_ne (l : List (Nat × SessionCallback)) (k : Nat) :
    (l.filter (fun p => p.fst != k)).find? (fun p => p.fst == k) = none := by
  rw [List.find?_eq_none]
  intro x hx
  have hm := (List.mem_filter.mp hx).2
  simp only [bne_iff_ne, ne_eq, decide_eq_true_eq] at hm
  simp only [beq_iff_eq]
  exact hm

theorem Registry.get?_of_remove (cbs cbs2 : Registry) (k : Nat)
    (h : Registry.remove cbs k = some cbs2) : Registry.get? cbs2 k = none := by
  simp only [Registry.remove] at h
  by_cases hk : (cbs.entries.find? (fun p => p.fst == k)).isSome
  · rw [if_pos hk, Option.some.injEq] at h
    rw [← h]
    simp only [Registry.get?, Registry.find?_filter_ne, Option.map_none']
  · rw [if_neg hk] at h
    cases h

theorem Registry.remove_of_get?_none (cbs : Registry) (k : Nat)
    (h : Registry.get? cbs k = none) : Registry.remove cbs k = none := by
  rw [Registry.get?, Option.map_eq_none'] at h
  simp only [Registry.remove, h, Option.isSome_none, Bool.false_eq_true, if_false]

theorem Registry.remove_remove (cbs cbs2 : Registry) (k : Nat)
    (h : Registry.remove cbs k = some cbs2) : Registry.remove cbs2 k = none :=
  Registry.remove_of_get?_none cbs2 k (Registry.get?_of_remove cbs cbs2 k h)

/-! ## Concrete fixtures used by the witnesses -/

/-- A sink that accepts every payload. -/
def okSink : SessionCallback := ⟨fun _ => Except.ok ()⟩

/-- A sink that rejects every payload. -/
def errSink : SessionCallback := ⟨fun _ => Except.error "boom"⟩

/-- A concrete engine: sessions 1 and 2 live, a fixed three-item response batch
for every request, and one buffered asynchronous response. -/
def wEngine : ProtoApiServer :=
  { nextId := 3
    submitFn := fun _ _ => [⟨1, [5]⟩, ⟨2, [6]⟩, ⟨1, [7]⟩]
    buffered := [⟨2, [9]⟩]
    live := [1, 2] }

/-- A concrete server over `wEngine` where session 1 accepts deliveries and
session 2 rejects them. -/
def wServer : Server :=
  { server := wEngine, callbacks := ⟨[(1, okSink), (2, errSink)]⟩ }

/-- The state of `wServer` after a successful `Server.close` of session 1. -/
def wClosed : Server :=
  { server := ffi.close_session wEngine 1, callbacks := ⟨[(2, errSink)]⟩ }

/-- The fan-out example of the spec: sessions 1 and 2 registered with accepting
sinks, and a request on session 1 with payload `[112]` produces a batch
addressed only to session 2. -/
def pingServer : Server :=
  { server :=
      { nextId := 3
        submitFn := fun id v => if id == 1 && v == [112] then [⟨2, [113]⟩] else []
        buffered := []
        live := [1, 2] }
    callbacks := ⟨[(1, okSink), (2, okSink)]⟩ }

/-! ## Claims -/

/-- C1: if, while `Server.handle_request` walks the engine's response batch,
the delivery to some recipient's sink fails, the operation returns that error
and the attempted deliveries are exactly those of the preceding items plus the
failing one — no delivery is attempted for any later item of the batch. -/
theorem handle_request_fail_fast (s : Server) (client_id : Nat) (val : Bytes)
    (pre : List EngineResponse) (r : EngineResponse) (post : List EngineResponse)
    (f : SessionCallback) (e : ServerError)
    (hbatch : ffi.handle_request s.server client_id val = pre ++ r :: post)
    (hpre : ∀ x ∈ pre, deliveryOk s.callbacks x = true)
    (hf : Registry.get? s.callbacks r.client_id = some f)
    (he : f.deliver r.resp = Except.error e) :
    (Server.handle_request s client_id val).snd =
      (okTrace s.callbacks pre ++ [⟨r.client_id, r.resp⟩], some e) := by
  show handleRequestLoop s.callbacks (ffi.handle_request s.server client_id val) = _
  rw [hbatch]
  exact handleRequestLoop_fail_fast s.callbacks pre r post f e hpre hf he

/-- Witness for C1: on `wServer`, the batch `[(1,[5]), (2,[6]), (1,[7])]`
aborts at the second item with the error of session 2's sink, after delivering
only to session 1 once. -/
theorem handle_request_fail_fast_witness :
    (Server.handle_request wServer 1 [0]).snd = ([⟨1, [5]⟩, ⟨2, [6]⟩], some "boom") :=
  handle_request_fail_fast wServer 1 [0] [⟨1, [5]⟩] ⟨2, [6]⟩ [⟨1, [7]⟩] errSink "boom"
    rfl (by decide) rfl rfl

/-- C2: an item of the batch whose recipient has no registry entry is dropped
without error and processing continues with the remaining items; a batch
consisting only of unroutable items produces no delivery and returns `Ok(())`. -/
theorem handle_request_unroutable (s : Server) (client_id : Nat) (val : Bytes) :
    (∀ r rest, ffi.handle_request s.server client_id val = r :: rest →
        Registry.get? s.callbacks r.client_id = none →
        (Server.handle_request s client_id val).snd = handleRequestLoop s.callbacks rest)
    ∧ ((ffi.handle_request s.server client_id val).all
          (fun r => (Registry.get? s.callbacks r.client_id).isNone) = true →
        (Server.handle_request s client_id val).snd = ([], none)) := by
  constructor
  · intro r rest hbatch hr
    show handleRequestLoop s.callbacks (ffi.handle_request s.server client_id val) = _
    rw [hbatch]
    exact handleRequestLoop_skip s.callbacks r rest hr
  · intro hall
    show handleRequestLoop s.callbacks (ffi.handle_request s.server client_id val) = _
    have hok : ∀ x ∈ ffi.handle_request s.server client_id val,
        deliveryOk s.callbacks x = true := by
      intro x hx
      have hx2 := List.all_eq_true.mp hall x hx
      rw [Option.isNone_iff_eq_none] at hx2
      simp only [deliveryOk, hx2]
    rw [handleRequestLoop_all_ok s.callbacks _ hok]
    have htr : okTrace s.callbacks (ffi.handle_request s.server client_id val) = [] := by
      rw [okTrace, List.filterMap_eq_nil_iff]
      intro x hx
      have hx2 := List.all_eq_true.mp hall x hx
      rw [Option.isNone_iff_eq_none] at hx2
      rw [hx2, Option.map_none']
    rw [htr]

/-- Witness for C2: on `wClosed` (only session 2 registered, and its sink
errors), a server whose whole batch is addressed to the unregistered session 1
delivers nothing and returns `Ok(())`. -/
theorem handle_request_unroutable_witness :
    (Server.handle_request
        { server := { wEngine with submitFn := fun _ _ => [⟨7, [1]⟩, ⟨9, [2]⟩] }
          callbacks := ⟨[(2, errSink)]⟩ } 2 [0]).snd = ([], none) :=
  (handle_request_unroutable
    { server := { wEngine with submitFn := fun _ _ => [⟨7, [1]⟩, ⟨9, [2]⟩] }
      callbacks := ⟨[(2, errSink)]⟩ } 2 [0]).2 (by decide)

/-- C4: when every delivery of the batch succeeds, `Server.handle_request`
attempts exactly the deliveries to the currently-registered recipients named in
the batch, in batch order, and returns success; and every attempted delivery is
addressed to a recipient named in the batch, so sinks of sessions not named are
never invoked. -/
theorem handle_request_fanout (s : Server) (client_id : Nat) (val : Bytes)
    (hok : (ffi.handle_request s.server client_id val).all (deliveryOk s.callbacks) = true) :
    (Server.handle_request s client_id val).snd =
      (okTrace s.callbacks (ffi.handle_request s.server client_id val), none)
    ∧ ∀ d ∈ okTrace s.callbacks (ffi.handle_request s.server client_id val),
        d.client_id ∈ (ffi.handle_request s.server client_id val).map
          EngineResponse.client_id := by
  constructor
  · exact handleRequestLoop_all_ok s.callbacks _ (List.all_eq_true.mp hok)
  · intro d hd
    rw [okTrace] at hd
    obtain ⟨a, ha, hfa⟩ := List.mem_filterMap.mp hd
    cases hg : Registry.get? s.callbacks a.client_id with
    | none => rw [hg, Option.map_none'] at hfa; cases hfa
    | some f =>
      rw [hg, Option.map_some', Option.some.injEq] at hfa
      rw [← hfa]
      exact List.mem_map_of_mem EngineResponse.client_id ha

/-- Witness for C4, the spec's example scenario on `pingServer`: a request on
session 1 whose batch is `[(2, [113])]` delivers to session 2's sink exactly
once, never to session 1's, and succeeds. -/
theorem handle_request_fanout_witness :
    (Server.handle_request pingServer 1 [112]).snd = ([⟨2, [113]⟩], none) :=
  (handle_request_fanout pingServer 1 [112] (by decide)).1

/-- C7: `Session.poll` delegates to the global `Server.poll`, independent of
which session polls; `Server.poll` delivers the engine's drained batch through
the `handleRequestLoop` semantics, because the poll delivery loop and the
handle_request delivery loop agree on every registry and batch (same lookup,
same silent drop of unregistered recipients, same in-order fail-fast rule). -/
theorem session_poll_global_equiv (s : Server) (a b : Session) (cbs : Registry)
    (batch : List EngineResponse) :
    Session.poll a s = Server.poll s
    ∧ Session.poll a s = Session.poll b s
    ∧ (Server.poll s).snd = handleRequestLoop s.callbacks (ffi.poll s.server).snd
    ∧ pollLoop cbs batch = handleRequestLoop cbs batch :=
  ⟨rfl, rfl, pollLoop_eq_handleRequestLoop s.callbacks (ffi.poll s.server).snd,
    pollLoop_eq_handleRequestLoop cbs batch⟩

/-- C10: neither `Server.handle_request` nor `Server.poll` inserts or removes
registry entries — the callback registry is unchanged by both, and since the
result covers the error case as well as success, this holds whether the
delivery outcome is `Ok` or an error. -/
theorem handle_request_poll_frame (s : Server) (client_id : Nat) (val : Bytes) :
    (Server.handle_request s client_id val).fst.callbacks = s.callbacks
    ∧ (Server.poll s).fst.callbacks = s.callbacks :=
  ⟨rfl, rfl⟩

/-- C3: closing the same session identifier twice fails loudly on the second
call: after a successful `Server.close`, a second `Server.close` of the same
identifier finds no registry entry, so `HashMap::remove` yields nothing and the
`.expect` assertion fires (modelled as the `none` outcome), never a silent
success. -/
theorem close_twice_fails (s : Server) (client_id : Nat) (s1 : Server)
    (ev : List CloseEvent) (h : Server.close s client_id = some (s1, ev)) :
    Server.close s1 client_id = none := by
  cases hrem : Registry.remove s.callbacks client_id with
  | none =>
    simp only [Server.close, hrem] at h
    exact Option.noConfusion h
  | some cbs =>
    simp only [Server.close, hrem, Option.some.injEq, Prod.mk.injEq] at h
    obtain ⟨h1, -⟩ := h
    have h2 : Registry.remove s1.callbacks client_id = none := by
      rw [← h1]
      exact Registry.remove_remove s.callbacks cbs client_id hrem
    simp only [Server.close, h2]

/-- Witness for C3: closing session 1 of `wServer` succeeds once and yields
`wClosed`; the second close of identifier 1 hits the fatal `none` outcome. -/
theorem close_twice_fails_witness : Server.close wClosed 1 = none :=
  close_twice_fails wServer 1 wClosed
    [CloseEvent.engineRelease 1, CloseEvent.registryRemove 1] rfl

/-- C5: by the time `Server.new_session_with_callback` returns, the registry
maps the newly allocated identifier to the supplied sink, and the returned
session is bound to that identifier (the one the engine allocated) with its
closed flag unset. -/
theorem new_session_registers_sink (s : Server) (cb : SessionCallback) :
    Registry.get? (Server.new_session_with_callback s cb).fst.callbacks
        (Server.new_session_with_callback s cb).snd.id = some cb
    ∧ (Server.new_session_with_callback s cb).snd.closed = false
    ∧ (Server.new_session_with_callback s cb).snd.id = (ffi.new_session s.server).snd := by
  refine ⟨?_, rfl, rfl⟩
  simp only [Server.new_session_with_callback, Registry.get?, Registry.insert]
  rw [List.find?_cons_of_pos]
  · rfl
  · exact beq_self_eq_true _

/-- C6: discarding a session whose closed flag is unset emits exactly one
error-level log event, while the session value consumed by `Session.close`
emits none when dropped; `Session.drop` is a total function, so the destructor
returns in every case rather than panicking. -/
theorem session_drop_leak_detection (sess : Session) (s : Server) :
    (sess.closed = false → Session.drop sess = 1)
    ∧ Session.drop (Session.close sess s).fst = 0 := by
  refine ⟨fun h => ?_, rfl⟩
  simp [Session.drop, h]

/-- Witness for C6: dropping the never-closed session 0 logs once; dropping the
value consumed by closing it logs nothing. -/
theorem session_drop_leak_detection_witness :
    Session.drop { id := 0, closed := false } = 1
    ∧ Session.drop (Session.close { id := 0, closed := false } wServer).fst = 0 :=
  ⟨(session_drop_leak_detection { id := 0, closed := false } wServer).1 rfl,
    (session_drop_leak_detection { id := 0, closed := false } wServer).2⟩

/-- C8: `Session.close` consumes the session (returning it with the closed
flag set, so the subsequent drop is silent) and delegates to `Server.close` on
its identifier; when that close succeeds, its effect trace releases the engine
resources first and removes the registry entry second, the new engine state is
the released one, and the identifier is no longer registered. -/
theorem session_close_order (sess : Session) (s : Server) :
    (Session.close sess s).fst.closed = true
    ∧ (Session.close sess s).snd = Server.close s sess.id
    ∧ ∀ s1 ev, Server.close s sess.id = some (s1, ev) →
        ev = [CloseEvent.engineRelease sess.id, CloseEvent.registryRemove sess.id]
        ∧ s1.server = ffi.close_session s.server sess.id
        ∧ Registry.get? s1.callbacks sess.id = none := by
  refine ⟨rfl, rfl, ?_⟩
  intro s1 ev h
  cases hrem : Registry.remove s.callbacks sess.id with
  | none =>
    simp only [Server.close, hrem] at h
    exact Option.noConfusion h
  | some cbs =>
    simp only [Server.close, hrem, Option.some.injEq, Prod.mk.injEq] at h
    obtain ⟨h1, h2⟩ := h
    refine ⟨h2.symm, ?_, ?_⟩
    · rw [← h1]
    · rw [← h1]
      exact Registry.get?_of_remove s.callbacks cbs sess.id hrem

/-- Witness for C8: closing session 1 of `wServer` yields the engine-release
event before the registry-removal event, the released engine state, and no
remaining registry entry for identifier 1. -/
theorem session_close_order_witness :
    [CloseEvent.engineRelease 1, CloseEvent.registryRemove 1] =
      [CloseEvent.engineRelease (1 : Nat), CloseEvent.registryRemove 1]
    ∧ wClosed.server = ffi.close_session wServer.server 1
    ∧ Registry.get? wClosed.callbacks 1 = none :=
  (session_close_order { id := 1, closed := false } wServer).2.2 wClosed
    [CloseEvent.engineRelease 1, CloseEvent.registryRemove 1] rfl

theorem createSessions_ids_ge (s : Server) (sinks : List SessionCallback) :
    ∀ i ∈ (createSessions s sinks).snd, s.server.nextId ≤ i := by
  induction sinks generalizing s with
  | nil => intro i hi; cases hi
  | cons cb rest ih =>
    intro i hi
    simp only [createSessions, Server.new_session_with_callback, ffi.new_session] at hi
    rcases List.mem_cons.mp hi with h | h
    · exact Nat.le_of_eq h.symm
    · have hge := ih _ i h
      simp only at hge
      omega

theorem createSessions_nodup (s : Server) (sinks : List SessionCallback) :
    (createSessions s sinks).snd.Nodup := by
  induction sinks generalizing s with
  | nil => exact List.nodup_nil
  | cons cb rest ih =>
    simp only [createSessions]
    rw [List.nodup_cons]
    refine ⟨fun hmem => ?_, ih _⟩
    have hge := createSessions_ids_ge _ rest _ hmem
    simp only [Server.new_session_with_callback, ffi.new_session] at hge hmem
    omega

/-- C9: creating any number of sessions in sequence with no interleaved closes
returns pairwise-distinct identifiers, and the identifier allocated by a single
session creation is not among the identifiers currently registered (under the
invariant that every registered identifier is below the engine's allocation
counter, which creation preserves). -/
theorem create_sessions_ids_unique (s : Server) (sinks : List SessionCallback)
    (cb : SessionCallback)
    (hinv : ∀ k ∈ Registry.keys s.callbacks, k < s.server.nextId) :
    (createSessions s sinks).snd.Nodup
    ∧ (Server.new_session_with_callback s cb).snd.id ∉ Registry.keys s.callbacks := by
  refine ⟨createSessions_nodup s sinks, fun hmem => ?_⟩
  have hlt := hinv _ hmem
  simp only [Server.new_session_with_callback, ffi.new_session] at hlt
  omega

/-- Witness for C9: three creations on `wServer` (registered identifiers 1 and
2, allocation counter at 3) return distinct identifiers, and a fresh creation
returns an identifier that is not currently registered. -/
theorem create_sessions_ids_unique_witness :
    (createSessions wServer [okSink, okSink, okSink]).snd.Nodup
    ∧ (Server.new_session_with_callback wServer okSink).snd.id ∉
        Registry.keys wServer.callbacks :=
  create_sessions_ids_unique wServer [okSink, okSink, okSink] okSink (by decide)
